import Mathlib

/-!
Verification development for the poker-hands extraction module (`extract.py`).

The definitions below are a shallow embedding of the module's record
decoders (`HdbRecord`, `HrosterRecord`, `PdbRecord` built on pydantic
validation), of the per-group synchronized merge loop in
`PokerHandsExtractor._extract_single_group`, and of that function's
surrounding name-parsing / member-lookup phase.

Conventions of the embedding:
- a line stream is a `List String` of raw lines (already read from the
  nested tar members, whose byte-level mechanics are not modelled);
- Python machine integers are `Int` (arbitrary precision in Python too);
- pydantic `ValidationError` on record construction is `Option.none`
  from the corresponding parse function (for the roster record, whose
  constructor indexes `args[0]` / `args[1]` directly, an out-of-range
  index raises `IndexError` instead, modelled by a dedicated result);
- the merge loop's exception-driven exits (`StopIteration`,
  `AssertionError`, uncaught `ValidationError`) are an explicit
  `ExitCause` paired with the accumulated hands; the `finally: return
  hands` statement, which suppresses any in-flight exception, is the
  projection `mergePhase := (mergePhaseE ...).1`.
-/

/-! ## Token-level helpers -/

/-- Digits of a token folded to a number, as Python `int()` on a digit string. -/
def natOfDigits (cs : List Char) : Nat :=
  cs.foldl (fun a c => a * 10 + (c.toNat - 48)) 0

/-- Python `int(token)` coercion used by pydantic for `int` fields:
an optional minus sign followed by a non-empty digit run. -/
def parseIntToken (s : String) : Option Int :=
  match s.data with
  | [] => none
  | '-' :: rest =>
      if rest ≠ [] ∧ rest.all Char.isDigit then some (-(natOfDigits rest : Int)) else none
  | cs => if cs.all Char.isDigit then some ((natOfDigits cs : Int)) else none

/-- Split a character list at every separator, keeping empty chunks
(the behaviour of Python `str.split(sep)` and of regex anchoring). -/
def splitCharsAux (p : Char → Bool) : List Char → List Char → List (List Char)
  | [], acc => [acc.reverse]
  | c :: cs, acc =>
      if p c then acc.reverse :: splitCharsAux p cs [] else splitCharsAux p cs (c :: acc)

def splitChars (p : Char → Bool) (cs : List Char) : List (List Char) :=
  splitCharsAux p cs []

/-- `x.decode().strip().split()` followed by dropping empty tokens:
whitespace-run tokenization of one raw line. -/
def tokensOf (s : String) : List String :=
  ((splitChars (fun c => c.isWhitespace) s.data).filter (fun cs => cs ≠ [])).map
    (fun cs => String.mk cs)

/-- The `Timestamp` annotated type: an int in `[100000000, 999999999]`. -/
def parseTimestamp (s : String) : Option Int :=
  match parseIntToken s with
  | some i => if 100000000 ≤ i ∧ i ≤ 999999999 then some i else none
  | none => none

/-- The `Stage` annotated type's pattern: digits, one slash, digits. -/
def validStage (s : String) : Bool :=
  match splitChars (fun c => c = '/') s.data with
  | [a, b] => (!a.isEmpty) && (!b.isEmpty) && a.all Char.isDigit && b.all Char.isDigit
  | _ => false

/-- The `Card` annotated type's pattern `[1-9,TJQKA][schd]` (the comma is
part of the character class in the source regex). -/
def validCard (s : String) : Bool :=
  match s.data with
  | [a, b] => ("123456789,TJQKA".data.contains a) && ("schd".data.contains b)
  | _ => false

/-- The `Action` annotated type's pattern `[BfkbcrAQK-]+`. -/
def validAction (s : String) : Bool :=
  (!s.data.isEmpty) && s.data.all (fun c => "BfkbcrAQK-".data.contains c)

/-- A required `Stage` field: present and pattern-valid, else rejection. -/
def reqStage (s : String) : Option String :=
  if validStage s then some s else none

/-- A required `Action` field: present and pattern-valid, else rejection. -/
def reqAction (s : String) : Option String :=
  if validAction s then some s else none

/-- An `Optional[Card]` field under the zip-based constructor: an absent
token is `None`; a present token must be a valid card or the whole record
is rejected. -/
def optCard (o : Option String) : Option (Option String) :=
  match o with
  | none => some none
  | some t => if validCard t then some (some t) else none

/-! ## Record types (the three pydantic models) -/

/-- One `hdb` (primary) line: `HdbRecord` in the source. -/
structure HdbRecord where
  timestamp : Int
  dealer : Int
  hand_num : Int
  num_players : Int
  flop : String
  turn : String
  river : String
  showdown : String
  card1 : Option String
  card2 : Option String
  card3 : Option String
  card4 : Option String
  card5 : Option String
deriving Repr, DecidableEq

/-- One `hroster` line: `HrosterRecord` in the source. -/
structure HrosterRecord where
  timestamp : Int
  num_players : Int
  players : List String
deriving Repr, DecidableEq

/-- One `pdb.<player>` line: `PdbRecord` in the source. -/
structure PdbRecord where
  player : String
  timestamp : Int
  num_players : Int
  position : Int
  preflop : String
  flop : String
  turn : String
  river : String
  bankroll : Int
  total_bet : Int
  total_win : Int
  card1 : Option String
  card2 : Option String
deriving Repr, DecidableEq

/-- `HdbRecord(*args)`: the zip-based keyword construction pairs tokens
with fields positionally (surplus tokens beyond the last field are
dropped by `zip`; a missing required field or any field failing its
validation raises `ValidationError`, i.e. `none` here). -/
def parseHdb (toks : List String) : Option HdbRecord :=
  match toks[0]?.bind parseTimestamp, toks[1]?.bind parseIntToken,
        toks[2]?.bind parseIntToken, toks[3]?.bind parseIntToken,
        toks[4]?.bind reqStage, toks[5]?.bind reqStage,
        toks[6]?.bind reqStage, toks[7]?.bind reqStage,
        optCard toks[8]?, optCard toks[9]?, optCard toks[10]?,
        optCard toks[11]?, optCard toks[12]? with
  | some ts, some dealer, some hand_num, some num_players,
    some flop, some turn, some river, some showdown,
    some card1, some card2, some card3, some card4, some card5 =>
      some ⟨ts, dealer, hand_num, num_players, flop, turn, river, showdown,
            card1, card2, card3, card4, card5⟩
  | _, _, _, _, _, _, _, _, _, _, _, _, _ => none

/-- Result of `HrosterRecord(*args)`: unlike the other two constructors it
indexes `args[0]` and `args[1]` directly, so fewer than two tokens raise
`IndexError` (not `ValidationError`); field validation failures raise
`ValidationError`. -/
inductive HrosterParse where
  | ok (r : HrosterRecord)
  | valError
  | indexError
deriving Repr, DecidableEq

def parseHroster (toks : List String) : HrosterParse :=
  match toks with
  | t0 :: t1 :: rest =>
      match parseTimestamp t0, parseIntToken t1 with
      | some ts, some np => .ok ⟨ts, np, rest⟩
      | _, _ => .valError
  | _ => .indexError

/-- `PdbRecord(*args)` under the same zip-based construction. -/
def parsePdb (toks : List String) : Option PdbRecord :=
  match toks[0]?, toks[1]?.bind parseTimestamp, toks[2]?.bind parseIntToken,
        toks[3]?.bind parseIntToken,
        toks[4]?.bind reqAction, toks[5]?.bind reqAction,
        toks[6]?.bind reqAction, toks[7]?.bind reqAction,
        toks[8]?.bind parseIntToken, toks[9]?.bind parseIntToken,
        toks[10]?.bind parseIntToken, optCard toks[11]?, optCard toks[12]? with
  | some player, some ts, some num_players, some position,
    some preflop, some flop, some turn, some river,
    some bankroll, some total_bet, some total_win, some card1, some card2 =>
      some ⟨player, ts, num_players, position, preflop, flop, turn, river,
            bankroll, total_bet, total_win, card1, card2⟩
  | _, _, _, _, _, _, _, _, _, _, _, _, _ => none

/-! ## Derived properties of records -/

/-- One entry of the output `pots` list. -/
structure Pot where
  num_players : Int
  stage : Char
  size : Int
deriving Repr, DecidableEq

/-- One entry of a player's output `bets` list. -/
structure Bet where
  actions : String
  stage : Char
deriving Repr, DecidableEq

/-- `int(n)`, `int(s)` from one validated `"<n>/<s>"` stage string;
the fallback arm is unreachable on validated input. -/
def potOfStage (tag : Char) (s : String) : Pot :=
  match splitChars (fun c => c = '/') s.data with
  | [a, b] => ⟨(natOfDigits a : Int), tag, (natOfDigits b : Int)⟩
  | _ => ⟨0, tag, 0⟩

/-- `HdbRecord.cards`: the non-`None` board cards in order. -/
def HdbRecord.cards (r : HdbRecord) : List String :=
  [r.card1, r.card2, r.card3, r.card4, r.card5].filterMap id

/-- `HdbRecord.pots`: one pot per post-preflop stage, tagged by the
stage name's first character. -/
def HdbRecord.pots (r : HdbRecord) : List Pot :=
  [potOfStage 'f' r.flop, potOfStage 't' r.turn,
   potOfStage 'r' r.river, potOfStage 's' r.showdown]

/-- `PdbRecord.cards`: the non-`None` pocket cards. -/
def PdbRecord.cards (r : PdbRecord) : List String :=
  [r.card1, r.card2].filterMap id

/-- `PdbRecord.bets`: the four action strings tagged by stage initial. -/
def PdbRecord.bets (r : PdbRecord) : List Bet :=
  [⟨r.preflop, 'p'⟩, ⟨r.flop, 'f'⟩, ⟨r.turn, 't'⟩, ⟨r.river, 'r'⟩]

/-! ## Output record -/

/-- One player's entry in the output `players` mapping. -/
structure ParticipantOut where
  total_bet : Int
  bankroll : Int
  bets : List Bet
  pocket_cards : List String
  position : Int
  total_win : Int
deriving Repr, DecidableEq

/-- One emitted hand (the output dict). The source embeds the matched
primary timestamp only inside `_id`; the embedding also keeps it as the
`timestamp` field (with `id = idOf folder timestamp`) so that statements
about emission order can mention it directly. Python `dict`s preserve
insertion order, so `players` is an ordered association list. -/
structure Hand where
  id : String
  board : List String
  dealer : Int
  game : String
  hand_num : Int
  num_players : Int
  players : List (String × ParticipantOut)
  pots : List Pot
  timestamp : Int
deriving Repr, DecidableEq

/-- Python `str.replace` with a single-character pattern. -/
def replaceCharStr (s : String) (a b : Char) : String :=
  String.mk (s.data.map (fun c => if c = a then b else c))

/-- `f"{folder_group}{SLASH}{hdb.timestamp}".replace(SLASH, "_")`. -/
def idOf (folder : String) (ts : Int) : String :=
  replaceCharStr (folder ++ "/" ++ toString ts) '/' '_'

/-- One player's output record built from their matched `PdbRecord`. -/
def mkParticipant (v : PdbRecord) : ParticipantOut :=
  ⟨v.total_bet, v.bankroll, v.bets, PdbRecord.cards v, v.position, v.total_win⟩

/-- The `hand` dict assembled for one successfully matched candidate. -/
def buildHand (folder game : String) (hdb : HdbRecord)
    (curr : List (String × PdbRecord)) : Hand :=
  ⟨idOf folder hdb.timestamp, HdbRecord.cards hdb, hdb.dealer, game,
   hdb.hand_num, hdb.num_players,
   curr.map (fun kv => (kv.1, mkParticipant kv.2)), HdbRecord.pots hdb,
   hdb.timestamp⟩

/-! ## Merge state: Python dict as ordered association list -/

def assocFind {α : Type} : List (String × α) → String → Option α
  | [], _ => none
  | (k', v) :: rest, k => if k' = k then some v else assocFind rest k

/-- `d[k] = v` on an existing key: update in place, keep position. -/
def assocUpdate {α : Type} (m : List (String × α)) (k : String) (v : α) :
    List (String × α) :=
  m.map (fun kv => if kv.1 = k then (k, v) else kv)

def assocHasKey {α : Type} (m : List (String × α)) (k : String) : Bool :=
  m.any (fun kv => kv.1 = k)

/-- `d[k] = v`: update in place if present, else append (Python dict
insertion-order semantics). -/
def assocInsert {α : Type} (m : List (String × α)) (k : String) (v : α) :
    List (String × α) :=
  if assocHasKey m k then assocUpdate m k v else m ++ [(k, v)]

/-- The `pdb` dict's value for one player: the current (most recently
decoded) record plus the remaining raw lines of that player's stream. -/
abbrev PdbMap : Type := List (String × (PdbRecord × List String))

/-! ## The merge loop of `_extract_single_group` -/

/-- Why the `while True` loop stopped: which exception (or normal
`StopIteration` on the primary stream) ended it. All of these are
invisible to the caller because of the `finally: return hands`. -/
inductive ExitCause where
  | hdbExhausted
  | rosterExhausted
  | rosterIndexError
  | pdbExhausted
  | assertTsEq
  | assertNumPlayers
  | assertCurrLen
  | assertCurrTs
  | pdbInitEmpty
  | pdbInitDecode
deriving Repr, DecidableEq

/-- Result of the inner `while True` advancing the roster stream to the
current primary timestamp. A `ValidationError` on a roster line escapes
the inner loop and is caught by the per-candidate handler (`decodeErr`,
with the bad line consumed); an `IndexError` (fewer than two tokens) is
caught by nothing and ends the merge. -/
inductive RosterAdv where
  | exhausted
  | indexErr
  | decodeErr (rest : List String)
  | found (r : HrosterRecord) (rest : List String)
deriving Repr, DecidableEq

def advanceRoster : List String → Int → RosterAdv
  | [], _ => .exhausted
  | l :: rest, target =>
      match parseHroster (tokensOf l) with
      | .indexError => .indexErr
      | .valError => .decodeErr rest
      | .ok r => if target ≤ r.timestamp then .found r rest else advanceRoster rest target

/-- Result of `while pdb[player].timestamp < hdb.timestamp: pdb[player] =
PdbRecord(...)`. On a line that fails decoding the assignment does not
happen but the line is consumed (`decodeErr` keeps the old current
record); exhaustion raises `StopIteration` which ends the whole merge. -/
inductive PdbAdv where
  | exhausted
  | decodeErr (c : PdbRecord) (rest : List String)
  | done (c : PdbRecord) (rest : List String)
deriving Repr, DecidableEq

def advancePdb (target : Int) : PdbRecord → List String → PdbAdv
  | c, [] => if c.timestamp < target then .exhausted else .done c []
  | c, l :: rest =>
      if c.timestamp < target then
        match parsePdb (tokensOf l) with
        | none => .decodeErr c rest
        | some c' => advancePdb target c' rest
      else .done c (l :: rest)

/-- Result of the `for player in hroster.players` loop building
`pdb_curr`. `abandon` covers the three caught abandon paths (player
absent from `pdb`, cursor overshoot, decode failure during the advance):
each sets `pdb_missing`/raises a caught `ValidationError` and the
candidate is skipped with the dict state retained. -/
inductive Collect where
  | exhausted
  | abandon (m : PdbMap)
  | collected (curr : List (String × PdbRecord)) (m : PdbMap)
deriving Repr, DecidableEq

def collectPlayers (target : Int) :
    List String → PdbMap → List (String × PdbRecord) → Collect
  | [], m, curr => .collected curr m
  | p :: ps, m, curr =>
      match assocFind m p with
      | none => .abandon m
      | some (c, ls) =>
          match advancePdb target c ls with
          | .exhausted => .exhausted
          | .decodeErr c' ls' => .abandon (assocUpdate m p (c', ls'))
          | .done c' ls' =>
              let m' := assocUpdate m p (c', ls')
              if target < c'.timestamp then .abandon m'
              else collectPlayers target ps m' (assocInsert curr p c')

/-- The `while True` merge loop, with the cause of its termination.
One iteration per primary line: decode it (a `ValidationError` is caught
and skips to the next line), advance the roster, check the two
timestamp/count assertions, gather the roster's players, check the two
`pdb_curr` assertions, and append the assembled hand. -/
def mergeRunE (folder game : String) :
    List String → List String → PdbMap → List Hand × ExitCause
  | [], _, _ => ([], .hdbExhausted)
  | l :: rest, roster, m =>
      match parseHdb (tokensOf l) with
      | none => mergeRunE folder game rest roster m
      | some hdb =>
          match advanceRoster roster hdb.timestamp with
          | .exhausted => ([], .rosterExhausted)
          | .indexErr => ([], .rosterIndexError)
          | .decodeErr roster' => mergeRunE folder game rest roster' m
          | .found r roster' =>
              if hdb.timestamp < r.timestamp then mergeRunE folder game rest roster' m
              else if hdb.timestamp ≠ r.timestamp then ([], .assertTsEq)
              else if hdb.num_players ≠ r.num_players then ([], .assertNumPlayers)
              else
                match collectPlayers hdb.timestamp r.players m [] with
                | .exhausted => ([], .pdbExhausted)
                | .abandon m' => mergeRunE folder game rest roster' m'
                | .collected curr m' =>
                    if curr.length ≠ r.players.length then ([], .assertCurrLen)
                    else if ¬ (curr.all (fun kv => kv.2.timestamp = hdb.timestamp)) then
                      ([], .assertCurrTs)
                    else
                      let res := mergeRunE folder game rest roster' m'
                      (buildHand folder game hdb curr :: res.1, res.2)

/-- `pdb = {k: PdbRecord(*...) for k, v in iter_pdb.items()}`: read and
decode the first line of every player stream. This runs before the
per-candidate handler, so an empty stream (`StopIteration`) or a bad
first line (`ValidationError`) escapes to the cleanup with no hands. -/
def initPdb : List (String × List String) → PdbMap → Except ExitCause PdbMap
  | [], acc => .ok acc
  | (p, ls) :: files, acc =>
      match ls with
      | [] => .error .pdbInitEmpty
      | l :: rest =>
          match parsePdb (tokensOf l) with
          | none => .error .pdbInitDecode
          | some c => initPdb files (assocInsert acc p (c, rest))

/-- The member-extraction-and-merge phase of `_extract_single_group`
(the body of its `try`), with the loop's termination cause. -/
def mergePhaseE (folder game : String) (files : List (String × List String))
    (hdbLines rosterLines : List String) : List Hand × ExitCause :=
  match initPdb files [] with
  | .error c => ([], c)
  | .ok m => mergeRunE folder game hdbLines rosterLines m

/-- What the caller of `_extract_single_group` sees from that phase: the
`finally: return hands` suppresses whatever exception is in flight, so
only the accumulated list escapes. -/
def mergePhase (folder game : String) (files : List (String × List String))
    (hdbLines rosterLines : List String) : List Hand :=
  (mergePhaseE folder game files hdbLines rosterLines).1

/-! ## The surrounding group-identifier phase of `_extract_single_group` -/

/-- `VALID_GAME_TYPES`. -/
def validGameTypes : List String :=
  ["holdem", "holdem1", "holdem2", "holdem3", "holdemii", "holdempot",
   "nolimit", "tourney"]

/-- Python `str.endswith`. -/
def endsWithStr (s suf : String) : Bool :=
  decide (s.data.reverse.take suf.data.length = suf.data.reverse)

/-- `name_group.rsplit(SLASH, 1)[1]` when the split yields two parts
(`SLASH = "/"` off Windows), `none` when the separator does not occur
(in which case `fname_group` is never assigned). -/
def rsplitLastSlash (s : String) : Option String :=
  match splitChars (fun c => c = '/') s.data with
  | [_] => none
  | parts => (parts.getLast?).map (fun cs => String.mk cs)

/-- `fname_group.split(".", 1)[0]`. -/
def firstDotComponent (s : String) : String :=
  match splitChars (fun c => c = '.') s.data with
  | cs :: _ => String.mk cs
  | [] => s

/-- Python `str.rstrip(chars)`: strip trailing characters drawn from the
character set (so `rstrip(".tgz")` strips any run of `.`, `t`, `g`, `z`). -/
def rstripSet (s : String) (set : String) : String :=
  String.mk ((s.data.reverse.dropWhile (fun c => set.data.contains c)).reverse)

/-- The nested group archive's relevant content, as seen through
`tar_group.extractfile` / `getnames`: the `hdb` member, the `hroster`
member, and the `pdb/pdb.<player>` members with their lines. `none`
models a missing member (`extractfile` returned `None`). -/
structure GroupContent where
  hdb : Option (List String)
  hroster : Option (List String)
  pdbFiles : List (String × List String)
deriving Repr, DecidableEq

/-- Result of `tar_in.extractfile(name_group)` for the requested member:
absent from the archive (`KeyError`), present but not a regular file
(`None`), or a well-formed nested group archive with the given content. -/
inductive MemberLookup where
  | absent
  | notAFile
  | file (c : GroupContent)
deriving Repr, DecidableEq

structure GroupEnv where
  member : MemberLookup
deriving Repr, DecidableEq

/-- The exceptions the pre-merge phase can raise to the caller: the
`UnboundLocalError` from using `fname_group` when the identifier had no
path separator, and the `KeyError` from `extractfile` on an unknown
member name. -/
inductive PyError where
  | unboundLocal
  | keyError
deriving Repr, DecidableEq

/-- `_extract_single_group(name_group, fname_in)`: the identifier checks
(container extension, category tag), member lookup, and then the merge
phase whose exceptions are suppressed by the cleanup return. -/
def extractSingleGroup (name : String) (env : GroupEnv) :
    Except PyError (List Hand) :=
  if endsWithStr name (".tgz") then
    match rsplitLastSlash name with
    | none => .error .unboundLocal
    | some fname_group =>
        let game_type := firstDotComponent fname_group
        if validGameTypes.contains game_type then
          let folder := replaceCharStr (rstripSet fname_group (".tgz")) '.' '/'
          match env.member with
          | .absent => .error .keyError
          | .notAFile => .ok []
          | .file c =>
              match c.hdb with
              | none => .ok []
              | some hdbLines =>
                  match c.hroster with
                  | none => .ok []
                  | some rosterLines =>
                      .ok (mergePhase folder game_type c.pdbFiles hdbLines rosterLines)
        else .ok []
  else .ok []

/-! ## Stream data derived for statements -/

/-- The timestamps of the primary lines that decode successfully, in
stream order (the candidate timestamps the merge loop ever sees). -/
def hdbTimestamps (lines : List String) : List Int :=
  lines.filterMap (fun l => (parseHdb (tokensOf l)).map HdbRecord.timestamp)

/-! ## Concrete inputs for the specific scenarios -/

/-- The spec's worked heads-up example, group `holdem.199601`. -/
def c5Files : List (String × List String) :=
  [("Jak", ["Jak  820830094  2  1  Bc  kc  kc  k  850  40  80  7c Ac"]),
   ("num", ["num  820830094  2  2  Bk  b  b  k  1420  40  0  9h Kh"])]

def c5Hdb : List String := ["820830094 20 1163 2 2/20 2/40 2/80 2/80 Qc 4s 6s 5d 4d"]

def c5Roster : List String := ["820830094 2 Jak num"]

/-- The EventRecord the spec's worked example must produce. -/
def c5Hand : Hand :=
  ⟨"holdem_199601_820830094", ["Qc", "4s", "6s", "5d", "4d"], 20, "holdem", 1163, 2,
   [("Jak", ⟨40, 850, [⟨"Bc", 'p'⟩, ⟨"kc", 'f'⟩, ⟨"kc", 't'⟩, ⟨"k", 'r'⟩],
             ["7c", "Ac"], 1, 80⟩),
    ("num", ⟨40, 1420, [⟨"Bk", 'p'⟩, ⟨"b", 'f'⟩, ⟨"b", 't'⟩, ⟨"k", 'r'⟩],
             ["9h", "Kh"], 2, 0⟩)],
   [⟨2, 'f', 20⟩, ⟨2, 't', 40⟩, ⟨2, 'r', 80⟩, ⟨2, 's', 80⟩], 820830094⟩

/-- Group where the first candidate has equal timestamps but a primary
participant count (3) different from the roster's (2), and a second,
cleanly matchable candidate follows. -/
def c1Line1 : String := "820830094 20 1163 3 2/20 2/40 2/80 2/80"

def c1Line2 : String := "820830095 21 1164 2 1/10 1/10 1/10 1/10"

def c1RosterLine1 : String := "820830094 2 Jak num"

def c1RosterLine2 : String := "820830095 2 Jak num"

def c1Hdb : List String := [c1Line1, c1Line2]

def c1Roster : List String := [c1RosterLine1, c1RosterLine2]

def c1Files : List (String × List String) :=
  [("Jak", ["Jak 820830094 2 1 B - - - 100 10 0", "Jak 820830095 2 1 B - - - 100 10 0"]),
   ("num", ["num 820830094 2 2 B - - - 100 10 0", "num 820830095 2 2 B - - - 100 10 0"])]

def c1HdbRec : HdbRecord :=
  ⟨820830094, 20, 1163, 3, "2/20", "2/40", "2/80", "2/80", none, none, none, none, none⟩

def c1RosterRec : HrosterRecord := ⟨820830094, 2, ["Jak", "num"]⟩

/-- Group where the first candidate needs player `Jak`, whose stream is
exhausted below the target timestamp; the second candidate only needs
player `num` and would match. -/
def c2Line1 : String := "820830094 20 1163 1 1/10 1/10 1/10 1/10"

def c2Line2 : String := "820830095 21 1164 1 1/10 1/10 1/10 1/10"

def c2RosterLine1 : String := "820830094 1 Jak"

def c2RosterLine2 : String := "820830095 1 num"

def c2Hdb : List String := [c2Line1, c2Line2]

def c2Roster : List String := [c2RosterLine1, c2RosterLine2]

def c2Files : List (String × List String) :=
  [("Jak", ["Jak 820830093 1 1 B - - - 100 10 0"]),
   ("num", ["num 820830095 1 1 B - - - 100 10 0"])]

def c2HdbRec : HdbRecord :=
  ⟨820830094, 20, 1163, 1, "1/10", "1/10", "1/10", "1/10", none, none, none, none, none⟩

def c2RosterRec : HrosterRecord := ⟨820830094, 1, ["Jak"]⟩

def c2JakRec : PdbRecord :=
  ⟨"Jak", 820830093, 1, 1, "B", "-", "-", "-", 100, 10, 0, none, none⟩

def c2Map : PdbMap := [("Jak", (c2JakRec, []))]

/-- Group whose roster line declares `num_players = 3` but lists two
names, with participant positions 1 and 7. -/
def c3Files : List (String × List String) :=
  [("Jak", ["Jak 820830094 3 1 B - - - 100 10 0"]),
   ("num", ["num 820830094 3 7 B - - - 100 10 0"])]

def c3Hdb : List String := ["820830094 20 1163 3 2/20 2/40 2/80 2/80"]

def c3Roster : List String := ["820830094 3 Jak num"]

/-- Minimal cleanly matching one-player group (used as a witness input). -/
def c3wFiles : List (String × List String) :=
  [("Jak", ["Jak 820830094 1 1 B - - - 100 10 0"])]

def c3wHdb : List String := ["820830094 20 1163 1 1/10 1/10 1/10 1/10"]

def c3wRoster : List String := ["820830094 1 Jak"]

def c3wHand : Hand :=
  ⟨"x_820830094", [], 20, "g", 1163, 1,
   [("Jak", ⟨10, 100, [⟨"B", 'p'⟩, ⟨"-", 'f'⟩, ⟨"-", 't'⟩, ⟨"-", 'r'⟩], [], 1, 0⟩)],
   [⟨1, 'f', 10⟩, ⟨1, 't', 10⟩, ⟨1, 'r', 10⟩, ⟨1, 's', 10⟩], 820830094⟩

/-- Group whose roster stream has a malformed line (bad timestamp) just
before the well-formed line matching the only primary record. -/
def c4Files : List (String × List String) :=
  [("Jak", ["Jak 820830094 1 1 B - - - 100 10 0"])]

def c4Line : String := "820830094 20 1163 1 1/10 1/10 1/10 1/10"

def c4Hdb : List String := [c4Line]

def c4RosterBadLine : String := "zzz 1 Jak"

def c4RosterGoodLine : String := "820830094 1 Jak"

def c4RosterBad : List String := [c4RosterBadLine, c4RosterGoodLine]

def c4RosterGood : List String := [c4RosterGoodLine]

def c4HdbRec : HdbRecord :=
  ⟨820830094, 20, 1163, 1, "1/10", "1/10", "1/10", "1/10", none, none, none, none, none⟩

/-- Group whose only participant line carries exactly one card token. -/
def c6Files : List (String × List String) :=
  [("Jak", ["Jak 820830094 1 1 B - - - 100 10 0 7c"])]

def c6Hdb : List String := ["820830094 20 1163 1 1/10 1/10 1/10 1/10"]

def c6Roster : List String := ["820830094 1 Jak"]

def c6Part : ParticipantOut :=
  ⟨10, 100, [⟨"B", 'p'⟩, ⟨"-", 'f'⟩, ⟨"-", 't'⟩, ⟨"-", 'r'⟩], ["7c"], 1, 0⟩

def c6Hand : Hand :=
  ⟨"x_820830094", [], 20, "g", 1163, 1, [("Jak", c6Part)],
   [⟨1, 'f', 10⟩, ⟨1, 't', 10⟩, ⟨1, 'r', 10⟩, ⟨1, 's', 10⟩], 820830094⟩

/-- Group where `Jak` folds preflop (`Bf - - -`) yet the raw line carries
two card tokens. -/
def c7Files : List (String × List String) :=
  [("Jak", ["Jak 820830094 2 1 Bf - - - 850 40 0 7c Ac"]),
   ("num", ["num 820830094 2 2 Bk b b k 1420 40 80 9h Kh"])]

def c7Hdb : List String := ["820830094 20 1163 2 2/20 1/20 1/20 1/20 Qc 4s 6s 5d 4d"]

def c7Roster : List String := ["820830094 2 Jak num"]

def c7wToks : List String := tokensOf ("Jak 820830094 2 1 Bf - - - 850 40 0 7c Ac")

def c7wRec : PdbRecord :=
  ⟨"Jak", 820830094, 2, 1, "Bf", "-", "-", "-", 850, 40, 0, some ("7c"), some ("Ac")⟩

/-- Two-candidate group that matches both (used for the monotonicity
witness). -/
def c9wFiles : List (String × List String) :=
  [("Jak", ["Jak 820830094 1 1 B - - - 100 10 0", "Jak 820830095 1 1 B - - - 100 10 0"])]

def c9wHdb : List String :=
  ["820830094 20 1163 1 1/10 1/10 1/10 1/10", "820830095 21 1164 1 1/10 1/10 1/10 1/10"]

def c9wRoster : List String := ["820830094 1 Jak", "820830095 1 Jak"]

/-- Group whose first candidate is emitted and whose second candidate
fails the participant-count assertion. -/
def c10Files : List (String × List String) :=
  [("Jak", ["Jak 820830094 1 1 B - - - 100 10 0"])]

def c10Hdb : List String :=
  ["820830094 20 1163 1 1/10 1/10 1/10 1/10", "820830095 21 1164 2 1/10 1/10 1/10 1/10"]

def c10Roster : List String := ["820830094 1 Jak", "820830095 1 Jak"]

/-! ## Helper lemmas about the embedded operations -/

/-- A present optional-card field is returned unchanged by validation. -/
theorem optCard_eq_some (o c : Option String) (h : optCard o = some c) : c = o := by
  cases o with
  | none => simp [optCard] at h; simp [h]
  | some t => simp [optCard] at h; exact h.2.symm

/-- A `PdbRecord` has at most its two card fields as pocket cards. -/
theorem pdbCards_length_le (v : PdbRecord) : (PdbRecord.cards v).length ≤ 2 := by
  cases h1 : v.card1 <;> cases h2 : v.card2 <;> simp [PdbRecord.cards, h1, h2]

/-- The lines left behind by a roster advance that hit a malformed line
are lines of the input stream. -/
theorem advanceRoster_decodeErr_sub (roster : List String) (target : Int)
    (rest : List String) (h : advanceRoster roster target = .decodeErr rest) :
    ∀ x ∈ rest, x ∈ roster := by
  induction roster with
  | nil => simp [advanceRoster] at h
  | cons l ls ih =>
      simp only [advanceRoster] at h
      cases hp : parseHroster (tokensOf l) with
      | indexError => rw [hp] at h; cases h
      | valError =>
          rw [hp] at h
          cases h
          exact fun x hx => List.mem_cons_of_mem _ hx
      | ok r =>
          rw [hp] at h
          dsimp only at h
          by_cases hle : target ≤ r.timestamp
          · rw [if_pos hle] at h; cases h
          · rw [if_neg hle] at h
            exact fun x hx => List.mem_cons_of_mem _ (ih h x hx)

/-- A roster record found by the forward advance decodes from some line
of the input stream, and the leftover lines are input lines. -/
theorem advanceRoster_found_spec (roster : List String) (target : Int)
    (r : HrosterRecord) (rest : List String)
    (h : advanceRoster roster target = .found r rest) :
    (∃ l, l ∈ roster ∧ parseHroster (tokensOf l) = .ok r) ∧ ∀ x ∈ rest, x ∈ roster := by
  induction roster with
  | nil => simp [advanceRoster] at h
  | cons l ls ih =>
      simp only [advanceRoster] at h
      cases hp : parseHroster (tokensOf l) with
      | indexError => rw [hp] at h; cases h
      | valError => rw [hp] at h; cases h
      | ok r2 =>
          rw [hp] at h
          dsimp only at h
          by_cases hle : target ≤ r2.timestamp
          · rw [if_pos hle] at h
            cases h
            refine ⟨⟨l, List.mem_cons_self _ _, hp⟩, ?_⟩
            exact fun x hx => List.mem_cons_of_mem _ hx
          · rw [if_neg hle] at h
            obtain ⟨⟨l2, hl2, hpl2⟩, hsub⟩ := ih h
            exact ⟨⟨l2, List.mem_cons_of_mem _ hl2, hpl2⟩,
              fun x hx => List.mem_cons_of_mem _ (hsub x hx)⟩

/-- Timestamps of emitted hands form a sublist of the decoded primary
timestamps: emission follows primary-stream order and every emitted hand
carries its matched primary record's timestamp. -/
theorem mergeRunE_ts_sublist (folder game : String) (lines : List String) :
    ∀ (roster : List String) (m : PdbMap),
      ((mergeRunE folder game lines roster m).1.map Hand.timestamp).Sublist
        (hdbTimestamps lines) := by
  induction lines with
  | nil => intro roster m; simp [mergeRunE, hdbTimestamps]
  | cons l rest ih =>
      intro roster m
      cases hp : parseHdb (tokensOf l) with
      | none =>
          simp only [mergeRunE, hp, hdbTimestamps, List.filterMap_cons]
          exact ih roster m
      | some hdb =>
          have hts : hdbTimestamps (l :: rest) = hdb.timestamp :: hdbTimestamps rest := by
            simp [hdbTimestamps, List.filterMap_cons, hp]
          rw [hts]
          cases ha : advanceRoster roster hdb.timestamp with
          | exhausted => simp [mergeRunE, hp, ha]
          | indexErr => simp [mergeRunE, hp, ha]
          | decodeErr roster2 =>
              simp only [mergeRunE, hp, ha]
              exact (ih roster2 m).cons _
          | found r roster2 =>
              simp only [mergeRunE, hp, ha]
              by_cases hlt : hdb.timestamp < r.timestamp
              · simp only [if_pos hlt]
                exact (ih roster2 m).cons _
              · rw [if_neg hlt]
                by_cases hne : hdb.timestamp ≠ r.timestamp
                · simp [hne]
                · rw [if_neg hne]
                  by_cases hnp : hdb.num_players ≠ r.num_players
                  · simp [hnp]
                  · rw [if_neg hnp]
                    cases hc : collectPlayers hdb.timestamp r.players m [] with
                    | exhausted => simp
                    | abandon m2 => exact (ih roster2 m2).cons _
                    | collected curr m2 =>
                        dsimp only
                        by_cases hlen : curr.length ≠ r.players.length
                        · simp [hlen]
                        · rw [if_neg hlen]
                          by_cases hall :
                              (curr.all fun kv => decide (kv.2.timestamp = hdb.timestamp)) = true
                          · rw [if_neg (by simp [hall])]
                            simp only [List.map_cons]
                            exact (ih roster2 m2).cons₂ _
                          · rw [if_pos (by simp [hall])]
                            simp

/-- Every emitted hand was assembled by `buildHand` from a primary record
and the gathered players of a roster record decoded from the roster
stream, after the count assertions held. -/
theorem mergeRunE_emitted (folder game : String) (lines : List String) :
    ∀ (roster : List String) (m : PdbMap) (h : Hand),
      h ∈ (mergeRunE folder game lines roster m).1 →
      ∃ hdb r curr, (∃ l, l ∈ roster ∧ parseHroster (tokensOf l) = .ok r) ∧
        h = buildHand folder game hdb curr ∧
        hdb.num_players = r.num_players ∧ curr.length = r.players.length := by
  induction lines with
  | nil => intro roster m h hmem; simp [mergeRunE] at hmem
  | cons l rest ih =>
      intro roster m h hmem
      cases hp : parseHdb (tokensOf l) with
      | none =>
          rw [show mergeRunE folder game (l :: rest) roster m
                = mergeRunE folder game rest roster m by simp [mergeRunE, hp]] at hmem
          exact ih roster m h hmem
      | some hdb =>
          simp only [mergeRunE, hp] at hmem
          cases ha : advanceRoster roster hdb.timestamp with
          | exhausted => rw [ha] at hmem; simp at hmem
          | indexErr => rw [ha] at hmem; simp at hmem
          | decodeErr roster2 =>
              rw [ha] at hmem
              dsimp only at hmem
              obtain ⟨hdb2, r2, curr2, ⟨l2, hl2, hpl2⟩, hrest⟩ := ih roster2 m h hmem
              exact ⟨hdb2, r2, curr2,
                ⟨l2, advanceRoster_decodeErr_sub roster hdb.timestamp roster2 ha l2 hl2, hpl2⟩,
                hrest⟩
          | found r roster2 =>
              rw [ha] at hmem
              dsimp only at hmem
              obtain ⟨⟨lr, hlr, hplr⟩, hsub⟩ :=
                advanceRoster_found_spec roster hdb.timestamp r roster2 ha
              by_cases hlt : hdb.timestamp < r.timestamp
              · rw [if_pos hlt] at hmem
                obtain ⟨hdb2, r2, curr2, ⟨l2, hl2, hpl2⟩, hrest⟩ := ih roster2 m h hmem
                exact ⟨hdb2, r2, curr2, ⟨l2, hsub l2 hl2, hpl2⟩, hrest⟩
              · rw [if_neg hlt] at hmem
                by_cases hne : hdb.timestamp ≠ r.timestamp
                · rw [if_pos hne] at hmem; simp at hmem
                · rw [if_neg hne] at hmem
                  by_cases hnp : hdb.num_players ≠ r.num_players
                  · rw [if_pos hnp] at hmem; simp at hmem
                  · rw [if_neg hnp] at hmem
                    cases hc : collectPlayers hdb.timestamp r.players m [] with
                    | exhausted => rw [hc] at hmem; simp at hmem
                    | abandon m2 =>
                        rw [hc] at hmem
                        dsimp only at hmem
                        obtain ⟨hdb2, r2, curr2, ⟨l2, hl2, hpl2⟩, hrest⟩ := ih roster2 m2 h hmem
                        exact ⟨hdb2, r2, curr2, ⟨l2, hsub l2 hl2, hpl2⟩, hrest⟩
                    | collected curr m2 =>
                        rw [hc] at hmem
                        dsimp only at hmem
                        by_cases hlen : curr.length ≠ r.players.length
                        · rw [if_pos hlen] at hmem; simp at hmem
                        · rw [if_neg hlen] at hmem
                          by_cases hall :
                              (curr.all fun kv => decide (kv.2.timestamp = hdb.timestamp)) = true
                          · rw [if_neg (by simp [hall])] at hmem
                            rcases List.mem_cons.mp hmem with heq | hmem2
                            · refine ⟨hdb, r, curr, ⟨lr, hlr, hplr⟩, heq, ?_, ?_⟩
                              · exact Classical.not_not.mp hnp
                              · exact Classical.not_not.mp hlen
                            · obtain ⟨hdb2, r2, curr2, ⟨l2, hl2, hpl2⟩, hrest⟩ :=
                                ih roster2 m2 h hmem2
                              exact ⟨hdb2, r2, curr2, ⟨l2, hsub l2 hl2, hpl2⟩, hrest⟩
                          · rw [if_pos (by simp [hall])] at hmem; simp at hmem

/-! ## Claim C1 -/

/-- Counterexample to claim C1: with equal timestamps but primary count 3
against roster count 2, the merge does not skip one candidate and
continue — the failed count assertion ends the whole group (exit cause
`assertNumPlayers`, nothing emitted), although the second primary record
of the same group is matchable on its own. -/
theorem claim_C1_counterexample :
    mergePhaseE ("x") ("g") c1Files c1Hdb c1Roster = ([], ExitCause.assertNumPlayers) ∧
    (mergePhase ("x") ("g") c1Files [c1Line2] [c1RosterLine2]).length = 1 :=
  ⟨by decide, by decide⟩

/-- Claim C1 (amended): when the primary record and the roster record
reached by forward advance have equal timestamps but unequal participant
counts, the failed assertion aborts the group's whole merge — no further
primary records are processed and nothing more is emitted (the cleanup
return then hands the previously accumulated records to the caller). -/
theorem claim_C1_theorem (folder game l : String) (rest roster : List String) (m : PdbMap)
    (hdb : HdbRecord) (r : HrosterRecord) (roster2 : List String)
    (h1 : parseHdb (tokensOf l) = some hdb)
    (h2 : advanceRoster roster hdb.timestamp = .found r roster2)
    (h3 : hdb.timestamp = r.timestamp)
    (h4 : hdb.num_players ≠ r.num_players) :
    mergeRunE folder game (l :: rest) roster m = ([], ExitCause.assertNumPlayers) := by
  simp only [mergeRunE, h1, h2]
  simp [h3, h4]

/-- Witness for claim C1's theorem at the concrete mismatching group. -/
theorem claim_C1_witness :
    mergeRunE ("x") ("g") (c1Line1 :: [c1Line2]) c1Roster [] = ([], ExitCause.assertNumPlayers) :=
  claim_C1_theorem ("x") ("g") c1Line1 [c1Line2] c1Roster [] c1HdbRec c1RosterRec
    [c1RosterLine2] (by decide) (by decide) (by decide) (by decide)

/-! ## Claim C2 -/

/-- Counterexample to claim C2: when a roster-listed participant's stream
is exhausted before reaching the primary timestamp, the whole group's
merge ends (`StopIteration`, exit cause `pdbExhausted`) with nothing
emitted, although the second primary record of the same group (needing
only the other player) is matchable on its own. -/
theorem claim_C2_counterexample :
    mergePhaseE ("x") ("g") c2Files c2Hdb c2Roster = ([], ExitCause.pdbExhausted) ∧
    (mergePhase ("x") ("g") c2Files [c2Line2] [c2RosterLine2]).length = 1 :=
  ⟨by decide, by decide⟩

/-- Claim C2 (amended): if a roster-listed participant's stream becomes
exhausted before reaching the primary record's timestamp, the resulting
`StopIteration` ends the whole group's merge — nothing is emitted for the
candidate and no later primary record of the group is processed. (Only
the no-stream and overshoot cases abandon just the one candidate.) -/
theorem claim_C2_theorem (folder game l : String) (rest roster : List String) (m : PdbMap)
    (hdb : HdbRecord) (r : HrosterRecord) (roster2 : List String)
    (h1 : parseHdb (tokensOf l) = some hdb)
    (h2 : advanceRoster roster hdb.timestamp = .found r roster2)
    (h3 : hdb.timestamp = r.timestamp)
    (h4 : hdb.num_players = r.num_players)
    (h5 : collectPlayers hdb.timestamp r.players m [] = .exhausted) :
    mergeRunE folder game (l :: rest) roster m = ([], ExitCause.pdbExhausted) := by
  simp only [mergeRunE, h1, h2]
  simp [← h3, h4, h5]

/-- Witness for claim C2's theorem at the concrete exhausting group. -/
theorem claim_C2_witness :
    mergeRunE ("x") ("g") (c2Line1 :: [c2Line2]) c2Roster c2Map = ([], ExitCause.pdbExhausted) :=
  claim_C2_theorem ("x") ("g") c2Line1 [c2Line2] c2Roster c2Map c2HdbRec c2RosterRec
    [c2RosterLine2] (by decide) (by decide) (by decide) (by decide) (by decide)

/-! ## Claim C3 -/

/-- Counterexample to claim C3: a roster line declaring `num_players = 3`
while listing two names yields an emitted record with `num_players = 3`
but only 2 players, whose positions are `{1, 7}` rather than
`{1, ..., num_players}`. -/
theorem claim_C3_counterexample :
    (mergePhase ("x") ("g") c3Files c3Hdb c3Roster).map
      (fun h => (h.num_players, h.players.length, h.players.map (fun kv => kv.2.position)))
      = [((3 : Int), 2, [(1 : Int), 7])] :=
  by decide

/-- Claim C3 (amended): for every emitted EventRecord, the number of
entries in the players mapping equals the length of the matched roster
record's participant list, and the record's `num_players` field equals
that roster record's `num_players` field; neither `num_players =
len(players)` nor the position set is enforced by the code. -/
theorem claim_C3_theorem (folder game : String) (files : List (String × List String))
    (hdbLines rosterLines : List String) (h : Hand)
    (hmem : h ∈ mergePhase folder game files hdbLines rosterLines) :
    ∃ l r, l ∈ rosterLines ∧ parseHroster (tokensOf l) = .ok r ∧
      h.players.length = r.players.length ∧ h.num_players = r.num_players := by
  unfold mergePhase mergePhaseE at hmem
  cases hi : initPdb files [] with
  | error c => rw [hi] at hmem; simp at hmem
  | ok m =>
      rw [hi] at hmem
      dsimp only at hmem
      obtain ⟨hdb, r, curr, ⟨l, hl, hpl⟩, heq, hnp, hlen⟩ :=
        mergeRunE_emitted folder game hdbLines rosterLines m h hmem
      refine ⟨l, r, hl, hpl, ?_, ?_⟩
      · rw [heq]; simpa [buildHand] using hlen
      · rw [heq]; exact hnp

/-- Witness for claim C3's theorem at a cleanly matching group. -/
theorem claim_C3_witness :
    c3wHand ∈ mergePhase ("x") ("g") c3wFiles c3wHdb c3wRoster ∧
    (∃ l r, l ∈ c3wRoster ∧ parseHroster (tokensOf l) = .ok r ∧
      c3wHand.players.length = r.players.length ∧ c3wHand.num_players = r.num_players) :=
  ⟨by decide, claim_C3_theorem ("x") ("g") c3wFiles c3wHdb c3wRoster c3wHand (by decide)⟩

/-! ## Claim C4 -/

/-- Counterexample to claim C4: a malformed roster line hit while
advancing toward the only primary record makes the merge abandon that
primary record (nothing emitted), even though the very next well-formed
roster line matches it — shown by the same group without the bad line
emitting one record. -/
theorem claim_C4_counterexample :
    mergePhase ("x") ("g") c4Files c4Hdb c4RosterBad = [] ∧
    (mergePhase ("x") ("g") c4Files c4Hdb c4RosterGood).length = 1 :=
  ⟨by decide, by decide⟩

/-- Claim C4 (amended): a line failing decode during the roster advance is
consumed and never revisited, and the merge continues — but with the next
primary record: the current candidate primary record is skipped rather
than matched against the remaining well-formed lines. (Only a malformed
line of the primary stream itself drops just that line.) -/
theorem claim_C4_theorem (folder game l : String) (rest roster : List String) (m : PdbMap)
    (hdb : HdbRecord) (roster2 : List String)
    (h1 : parseHdb (tokensOf l) = some hdb)
    (h2 : advanceRoster roster hdb.timestamp = .decodeErr roster2) :
    mergeRunE folder game (l :: rest) roster m = mergeRunE folder game rest roster2 m := by
  simp [mergeRunE, h1, h2]

/-- Witness for claim C4's theorem at the concrete group with one
malformed roster line. -/
theorem claim_C4_witness :
    mergeRunE ("x") ("g") (c4Line :: []) c4RosterBad [] =
      mergeRunE ("x") ("g") [] [c4RosterGoodLine] [] :=
  claim_C4_theorem ("x") ("g") c4Line [] c4RosterBad [] c4HdbRec [c4RosterGoodLine]
    (by decide) (by decide)

/-! ## Claim C5 -/

/-- Claim C5: on the spec's concrete heads-up example the merge produces
exactly one EventRecord with the stated board, the four pots of sizes
20/40/80/80 tagged f/t/r/s with 2 participants each, and both
participants' records as specified, including both two-card pockets. -/
theorem claim_C5_theorem :
    mergePhase ("holdem/199601") ("holdem") c5Files c5Hdb c5Roster = [c5Hand] := by
  decide

/-! ## Claim C6 -/

/-- Counterexample to claim C6: a participant line carrying exactly one
card token is decoded and emitted with a single-card pocket list. -/
theorem claim_C6_counterexample :
    (mergePhase ("x") ("g") c6Files c6Hdb c6Roster).map
      (fun h => h.players.map (fun kv => kv.2.pocket_cards)) = [[["7c"]]] := by
  decide

/-- Claim C6 (amended): every emitted participant's pocket-card list has
length at most 2; length exactly 0 or 2 is not guaranteed, since a line
carrying a single card token yields a one-card list. -/
theorem claim_C6_theorem (folder game : String) (files : List (String × List String))
    (hdbLines rosterLines : List String) (h : Hand) (kv : String × ParticipantOut)
    (hmem : h ∈ mergePhase folder game files hdbLines rosterLines)
    (hkv : kv ∈ h.players) : kv.2.pocket_cards.length ≤ 2 := by
  unfold mergePhase mergePhaseE at hmem
  cases hi : initPdb files [] with
  | error c => rw [hi] at hmem; simp at hmem
  | ok m =>
      rw [hi] at hmem
      dsimp only at hmem
      obtain ⟨hdb, r, curr, _, heq, _, _⟩ :=
        mergeRunE_emitted folder game hdbLines rosterLines m h hmem
      rw [heq] at hkv
      simp only [buildHand, List.mem_map] at hkv
      obtain ⟨kv0, hkv0, hkveq⟩ := hkv
      rw [← hkveq]
      exact pdbCards_length_le kv0.2

/-- Witness for claim C6's theorem at the one-card group. -/
theorem claim_C6_witness :
    (c6Hand ∈ mergePhase ("x") ("g") c6Files c6Hdb c6Roster ∧
      ("Jak", c6Part) ∈ c6Hand.players) ∧
    c6Part.pocket_cards.length ≤ 2 :=
  ⟨⟨by decide, by decide⟩,
   claim_C6_theorem ("x") ("g") c6Files c6Hdb c6Roster c6Hand ("Jak", c6Part)
     (by decide) (by decide)⟩

/-! ## Claim C7 -/

/-- Counterexample to claim C7: `Jak` folds preflop (actions
`Bf - - -`) yet the emitted record carries the line's two card tokens as
the pocket-card list instead of an empty list. -/
theorem claim_C7_counterexample :
    (mergePhase ("x") ("g") c7Files c7Hdb c7Roster).map
      (fun h => h.players.map (fun kv => (kv.1, kv.2.bets, kv.2.pocket_cards))) =
    [[("Jak", [⟨"Bf", 'p'⟩, ⟨"-", 'f'⟩, ⟨"-", 't'⟩, ⟨"-", 'r'⟩], ["7c", "Ac"]),
      ("num", [⟨"Bk", 'p'⟩, ⟨"b", 'f'⟩, ⟨"b", 't'⟩, ⟨"k", 'r'⟩], ["9h", "Kh"])]] := by
  decide

/-- Claim C7 (amended): the pocket cards of a decoded participant line are
exactly the card tokens at positions 12 and 13 of the line, regardless of
the four action-strings — a fold does not suppress card tokens, and the
list is empty only when the line carries none. -/
theorem claim_C7_theorem (toks : List String) (r : PdbRecord) (h : parsePdb toks = some r) :
    PdbRecord.cards r = [toks[11]?, toks[12]?].filterMap id := by
  unfold parsePdb at h
  split at h
  case _ player ts np pos a1 a2 a3 a4 b1 b2 b3 c1 c2 h0 h1 h2 h3 h4 h5 h6 h7 h8 h9 h10 h11 h12 =>
    cases h
    rw [optCard_eq_some _ _ h11, optCard_eq_some _ _ h12]
    rfl
  case _ => cases h

/-- Witness for claim C7's theorem at the folded participant's line. -/
theorem claim_C7_witness :
    PdbRecord.cards c7wRec = [c7wToks[11]?, c7wToks[12]?].filterMap id :=
  claim_C7_theorem c7wToks c7wRec (by decide)

/-! ## Claim C8 -/

/-- Claim C8 is a code bug: an identifier that ends in the container
extension but contains no path separator makes `_extract_single_group`
raise `UnboundLocalError` (`fname_group` is only assigned in the `else`
branch of the failed split, yet is used right after), for any archive
environment — so single-group extraction does not return a list for every
identifier. An identifier with a separator and an unrecognized category
tag does yield an empty result with no error. -/
theorem claim_C8_theorem :
    (∀ env, extractSingleGroup ("holdem.199601.tgz") env = .error .unboundLocal) ∧
    (∀ env, extractSingleGroup ("IRCdata/foo.199601.tgz") env = .ok []) :=
  ⟨fun _ => rfl, fun _ => rfl⟩

/-! ## Claim C9 -/

/-- Claim C9: if the decoded primary-line timestamps are non-decreasing,
the emitted records' timestamps (each being its matched primary record's
timestamp) are non-decreasing, since emission follows primary-stream
order. (Proved from monotonicity of the primary stream alone, a weaker
precondition than the claim's.) -/
theorem claim_C9_theorem (folder game : String) (files : List (String × List String))
    (hdbLines rosterLines : List String)
    (hmono : List.Pairwise (· ≤ ·) (hdbTimestamps hdbLines)) :
    List.Pairwise (· ≤ ·)
      ((mergePhase folder game files hdbLines rosterLines).map Hand.timestamp) := by
  unfold mergePhase mergePhaseE
  cases hi : initPdb files [] with
  | error c => simp
  | ok m =>
      dsimp only
      exact List.Pairwise.sublist (mergeRunE_ts_sublist folder game hdbLines rosterLines m) hmono

/-- Witness for claim C9's theorem at a two-candidate group. -/
theorem claim_C9_witness :
    List.Pairwise (· ≤ ·) (hdbTimestamps c9wHdb) ∧
    List.Pairwise (· ≤ ·)
      ((mergePhase ("x") ("g") c9wFiles c9wHdb c9wRoster).map Hand.timestamp) :=
  ⟨by decide, claim_C9_theorem ("x") ("g") c9wFiles c9wHdb c9wRoster (by decide)⟩

/-! ## Claim C10 -/

/-- Claim C10: the caller of the member-extraction-and-merge phase always
receives exactly the accumulated hand list, whatever exit the loop took —
the cleanup return replaces any in-flight exception. In particular, at a
concrete group whose second candidate fails the participant-count
assertion (an exception that is neither stream truncation nor
exhaustion), the caller still receives the one earlier hand, observing
only a shorter list and no exception. -/
theorem claim_C10_theorem :
    (∀ (folder game : String) (files : List (String × List String))
       (hdbLines rosterLines : List String),
       mergePhase folder game files hdbLines rosterLines =
         (mergePhaseE folder game files hdbLines rosterLines).1) ∧
    (mergePhaseE ("x") ("g") c10Files c10Hdb c10Roster).2 = ExitCause.assertNumPlayers ∧
    (mergePhase ("x") ("g") c10Files c10Hdb c10Roster).length = 1 :=
  ⟨fun _ _ _ _ _ => rfl, by decide, by decide⟩
